import Mathlib

/-!
Shallow embedding of the analytics/reporting engine of the
portfolio-task-manager repository (src/controllers/dashboardController.js),
together with theorems settling the frozen claims about it.

Modelling conventions:
* MongoDB documents become Lean structures.  Timestamps are `Int`
  (milliseconds since the epoch), numeric hour fields are `Rat` wrapped in
  `Option` when the schema leaves them optional (a missing field).
* `$sum` over an optional field treats a missing field as 0, matching
  MongoDB aggregation semantics.
* JavaScript `NaN`/`undefined` results of an arithmetic pipeline are
  modelled as `none` of an `Option` type; a guarded, defined value is
  `some q` with `q : Rat` exact (the display-only `toFixed(1)` rounding is
  abstracted away, as the spec's non-goals allow).
* `$group` produces one bucket per distinct key; MongoDB leaves the bucket
  order unspecified, here it is the order of first appearance obtained from
  `List.dedup` of the key list.
-/

namespace PTM

/-- A Task document (src/models/Task.js), restricted to the fields the
dashboard controller reads. -/
structure Task where
  ident : Nat
  title : String
  status : String
  priority : String
  project : Option Nat
  dueDate : Option Int
  completedDate : Option Int
  estimatedHours : Option Rat
  actualHours : Option Rat
  createdAt : Int
  updatedAt : Int
deriving DecidableEq, Repr

/-- A Project document (src/models/Project.js), restricted to the fields the
dashboard controller reads. -/
structure Project where
  ident : Nat
  name : String
  status : String
  priority : String
  startDate : Option Int
  dueDate : Option Int
  completedDate : Option Int
deriving DecidableEq, Repr

/-- The distinct keys of a list under `key`, one occurrence each
(the `_id` values produced by a `$group` stage). -/
def groupKeys {α κ : Type} [DecidableEq κ] (key : α → κ) (l : List α) : List κ :=
  (l.map key).dedup

/-- The `$group` stage by `key`: one `(key, members)` pair per distinct key. -/
def groupBy {α κ : Type} [DecidableEq κ] (key : α → κ) (l : List α) :
    List (κ × List α) :=
  (groupKeys key l).map (fun k => (k, l.filter (fun a => key a = k)))

/-- Sum of a rational-valued field over a list. -/
def sumOf {α : Type} (f : α → Rat) (l : List α) : Rat :=
  (l.map f).sum

/-! ### Task statistics rollup (dashboardController.js lines 41-59)

`Task.aggregate [$group: {_id: '$status', count, totalEstimated,
totalActual, ...}]`.  `$sum` of a missing field contributes 0. -/

/-- One bucket of the per-status task rollup. -/
structure TaskStat where
  statusKey : String
  count : Nat
  totalEstimated : Rat
  totalActual : Rat
deriving DecidableEq, Repr

/-- The per-status rollup of a Task collection. -/
def taskStatsOf (tasks : List Task) : List TaskStat :=
  (groupBy (fun t => t.status) tasks).map (fun g =>
    { statusKey := g.1
      count := g.2.length
      totalEstimated := sumOf (fun t => t.estimatedHours.getD 0) g.2
      totalActual := sumOf (fun t => t.actualHours.getD 0) g.2 })

/-! ### Performance insights (dashboardController.js lines 218-228)

`timeAccuracy`: the source guards on `taskStats.find(s => s.totalEstimated
&& s.totalActual)` and, when the guard succeeds, divides the `totalActual`
of the FIRST bucket with truthy `totalActual` by the `totalEstimated` of the
FIRST bucket with truthy `totalEstimated`.  JavaScript truthiness of a
number is `≠ 0` here.

`completionRate`: `(completed bucket count ?? 0) / (sum of all bucket
counts) * 100` with NO guard on the denominator; an empty rollup gives
`0 / 0 = NaN` in JavaScript, modelled as `none`. -/

/-- The `timeAccuracy` ratio as the source computes it (first matching buckets, not a
sum).  `none` would mean a NaN/exception; the guard makes the inner finds
succeed, so the reachable results are `some`. -/
def timeAccuracy (stats : List TaskStat) : Option Rat :=
  match stats.find? (fun s => s.totalEstimated ≠ 0 ∧ s.totalActual ≠ 0) with
  | none => some 0
  | some _ =>
    match stats.find? (fun s => s.totalActual ≠ 0),
          stats.find? (fun s => s.totalEstimated ≠ 0) with
    | some a, some e => some (a.totalActual / e.totalEstimated * 100)
    | _, _ => none

/-- The `completionRate` ratio as the source computes it: no zero-denominator guard,
so an empty bucket list yields NaN (`none`). -/
def completionRate (stats : List TaskStat) : Option Rat :=
  let total : Nat := (stats.map (fun s => s.count)).sum
  let completed : Nat := ((stats.find? (fun s => s.statusKey = "completed")).map
    (fun s => s.count)).getD 0
  if total = 0 then none
  else some (((completed : Rat) / (total : Rat)) * 100)

/-- Specification-side definition, written from the spec's words (§4.7):
`timeAccuracy` = (sum of actualHours across statuses that report it) /
(sum of estimatedHours across statuses that report it) × 100, 0 if either
side is absent.  Summing across ALL buckets (a bucket that reports nothing
contributes 0 to either sum). -/
def timeAccuracySumSpec (stats : List TaskStat) : Rat :=
  let est := sumOf (fun s => s.totalEstimated) stats
  let act := sumOf (fun s => s.totalActual) stats
  if est = 0 ∨ act = 0 then 0 else act / est * 100

/-! ### Overdue analysis (dashboardController.js lines 116-137)

The pipeline matches `dueDate < new Date()` and groups by priority with
`avgOverdueDays = avg((new Date() - dueDate) / 86400000)`.  The source
evaluates `new Date()` TWICE while building the pipeline — once in the
`$match` (line 119) and once in the `$group` (line 130) — so the embedding
takes two clock readings `nowFilter` and `nowAge`. -/

/-- One bucket of the overdue analysis. -/
structure OverdueBucket where
  priorityKey : String
  count : Nat
  avgOverdueDays : Rat
deriving DecidableEq, Repr

/-- Milliseconds per day, the source's `1000 * 60 * 60 * 24`. -/
def msPerDay : Int := 1000 * 60 * 60 * 24

/-- The `$match` of the overdue pipeline: `dueDate < now` (a document with
no dueDate never matches `$lt`) and status not in [completed, cancelled]. -/
def isOverdueAt (now : Int) (t : Task) : Bool :=
  (match t.dueDate with
   | some d => decide (d < now)
   | none => false) &&
  !(t.status = "completed" || t.status = "cancelled")

/-- The overdue analysis as the source computes it, with its two separate
clock readings: `nowFilter` is the `new Date()` of the `$match` stage and
`nowAge` the `new Date()` of the `$group` stage. -/
def overdueAnalysis (tasks : List Task) (nowFilter nowAge : Int) :
    List OverdueBucket :=
  let overdue := tasks.filter (isOverdueAt nowFilter)
  (groupBy (fun t => t.priority) overdue).map (fun g =>
    { priorityKey := g.1
      count := g.2.length
      avgOverdueDays :=
        sumOf (fun t => ((nowAge - t.dueDate.getD 0 : Int) : Rat) / (msPerDay : Rat)) g.2
          / (g.2.length : Rat) })

/-- Specification-side definition, written from the spec's words (§4.4):
"now" is captured once at the start of the computation and that single
value is reused for both the filter and the age calculation. -/
def overdueAnalysisSingleCapture (tasks : List Task) (now : Int) :
    List OverdueBucket :=
  let overdue := tasks.filter (isOverdueAt now)
  (groupBy (fun t => t.priority) overdue).map (fun g =>
    { priorityKey := g.1
      count := g.2.length
      avgOverdueDays :=
        sumOf (fun t => ((now - t.dueDate.getD 0 : Int) : Rat) / (msPerDay : Rat)) g.2
          / (g.2.length : Rat) })

/-! ### A sorting primitive for the `$sort` stages

Insertion sort by a boolean "comes no later than" relation; MongoDB's sort
order among equal keys is unspecified, so any faithful key-respecting sort
is an admissible embedding of `$sort`. -/

/-- Insert `a` into `l` before the first element `b` with `le a b`. -/
def insertBy {α : Type} (le : α → α → Bool) (a : α) : List α → List α
  | [] => [a]
  | b :: l => if le a b then a :: b :: l else b :: insertBy le a l

/-- Insertion sort by `le`. -/
def sortBy {α : Type} (le : α → α → Bool) : List α → List α
  | [] => []
  | a :: l => insertBy le a (sortBy le l)

/-! ### Project progress rollup (dashboardController.js lines 140-191)

`$lookup` of tasks by project reference (an outer join: a project with no
tasks keeps an empty task array), then per project the task count, the
completed-task count, and a percentage guarded by `$cond` on
`size(tasks) > 0`; finally `$sort {dueDate: 1}` (in BSON order a missing
dueDate sorts before any date, hence `dueLe`). -/

/-- One row of the project progress rollup. -/
structure ProgressRow where
  ident : Nat
  name : String
  status : String
  priority : String
  dueDate : Option Int
  totalTasks : Nat
  completedTasks : Nat
  progressPercentage : Rat
deriving DecidableEq, Repr

/-- The `$project` stage of the progress pipeline for one project. -/
def progressRowOf (tasks : List Task) (p : Project) : ProgressRow :=
  let pts := tasks.filter (fun t => t.project = some p.ident)
  let comp := (pts.filter (fun t => t.status = "completed")).length
  { ident := p.ident
    name := p.name
    status := p.status
    priority := p.priority
    dueDate := p.dueDate
    totalTasks := pts.length
    completedTasks := comp
    progressPercentage :=
      if 0 < pts.length then ((comp : Rat) / (pts.length : Rat)) * 100 else 0 }

/-- Ascending BSON comparison of optional due dates (missing sorts first). -/
def dueLe : Option Int → Option Int → Bool
  | none, _ => true
  | some _, none => false
  | some a, some b => decide (a ≤ b)

/-- The project progress rollup: one row per project (outer join), sorted by
due date ascending. -/
def projectProgress (projects : List Project) (tasks : List Task) :
    List ProgressRow :=
  sortBy (fun r1 r2 => dueLe r1.dueDate r2.dueDate)
    (projects.map (progressRowOf tasks))

/-! ### Priority distribution (dashboardController.js lines 91-113)

Two-stage `$group`: first by the pair (priority, status) producing cell
counts, then by priority alone, pushing `{status, count}` into
`statusBreakdown` and summing the cell counts into `total`. -/

/-- One `{status, count}` entry of a priority's breakdown. -/
structure PriorityCell where
  statusKey : String
  count : Nat
deriving DecidableEq, Repr

/-- One row of the priority distribution. -/
structure PriorityRow where
  priorityKey : String
  statusBreakdown : List PriorityCell
  total : Nat
deriving DecidableEq, Repr

/-- First `$group` stage: one `(priority, status, count)` cell per distinct
(priority, status) pair. -/
def priorityCells (tasks : List Task) : List (String × String × Nat) :=
  (groupBy (fun t => (t.priority, t.status)) tasks).map
    (fun g => (g.1.1, g.1.2, g.2.length))

/-- The priority × status cross-tabulation. -/
def priorityDistribution (tasks : List Task) : List PriorityRow :=
  (groupBy (fun c => c.1) (priorityCells tasks)).map (fun g =>
    { priorityKey := g.1
      statusBreakdown := g.2.map (fun c => ⟨c.2.1, c.2.2⟩)
      total := (g.2.map (fun c => c.2.2)).sum })

/-! ### Recent activity feed (dashboardController.js lines 194-215)

`$match updatedAt ≥ startDate`, `$sort {updatedAt: -1}`, `$limit 20`,
`$lookup` of the referenced project, then
`projectName: $arrayElemAt ['$projectInfo.name', 0]`.  When the task has no
project reference or the reference is dangling the lookup array is empty and
`$arrayElemAt` yields a MISSING value — the `projectName` field is absent
from the output document (modelled as `none`), not the empty string. -/

/-- One entry of the activity feed; `projectName = none` models the field
being absent from the output document. -/
structure ActivityEntry where
  title : String
  status : String
  priority : String
  updatedAt : Int
  projectName : Option String
deriving DecidableEq, Repr

/-- The `$lookup`/`$project` tail of the activity pipeline for one task. -/
def activityEntry (projects : List Project) (t : Task) : ActivityEntry :=
  { title := t.title
    status := t.status
    priority := t.priority
    updatedAt := t.updatedAt
    projectName := t.project.bind (fun pid =>
      (projects.find? (fun p => p.ident = pid)).map (fun p => p.name)) }

/-- The recent activity feed. -/
def recentActivity (projects : List Project) (tasks : List Task)
    (startDate : Int) : List ActivityEntry :=
  ((sortBy (fun a b => decide (b.updatedAt ≤ a.updatedAt))
      (tasks.filter (fun t => startDate ≤ t.updatedAt))).take 20).map
    (activityEntry projects)

/-! ### Time-tracking report (dashboardController.js lines 340-363)

`$match {estimatedHours: {$exists: true}, actualHours: {$exists: true},
completedDate?: dateFilter}` — note `$exists: true` is satisfied by a
present value of 0 — then a `$project` computing
`variance = actual - estimated` and
`variancePercent = (actual - estimated) / estimated * 100`.
The division is UNGUARDED: with `estimatedHours = 0` it is a
division by zero (the live aggregation engine raises an error there; the
embedding records the undefined value as `none`). -/

/-- One record of the time-tracking report; `variancePercent = none` models
the undefined result of the zero-estimate division. -/
structure TimeTrackingRecord where
  title : String
  estimatedHours : Rat
  actualHours : Rat
  variance : Rat
  variancePercent : Option Rat
deriving DecidableEq, Repr

/-- The optional `completedDate` range filter of the report query: with no
bound at all no `$match` clause is emitted; otherwise a document with a
missing `completedDate` fails the comparison. -/
def inDateFilter (fromDate toDate : Option Int) (d : Option Int) : Bool :=
  match fromDate, toDate with
  | none, none => true
  | _, _ =>
    match d with
    | none => false
    | some x =>
      (match fromDate with
       | none => true
       | some a => decide (a ≤ x)) &&
      (match toDate with
       | none => true
       | some b => decide (x ≤ b))

/-- The `time-tracking` branch of `generateReport`. -/
def timeTrackingReport (tasks : List Task) (fromDate toDate : Option Int) :
    List TimeTrackingRecord :=
  (tasks.filter (fun t => t.estimatedHours.isSome && t.actualHours.isSome &&
      inDateFilter fromDate toDate t.completedDate)).map (fun t =>
    let e := t.estimatedHours.getD 0
    let a := t.actualHours.getD 0
    { title := t.title
      estimatedHours := e
      actualHours := a
      variance := a - e
      variancePercent := if e = 0 then none else some ((a - e) / e * 100) })

/-! ### Bulk mutation (dashboardController.js lines 404-487)

The body is `{taskIds, updates, operation}`, any part of which may be
absent.  The handler validates `taskIds`, switches on `operation`, and for
the three update operations reads `updates.<field>` — WITHOUT first checking
that `updates` exists, so an absent `updates` object throws a `TypeError`
that the surrounding catch converts into an HTTP 500, not a 400.
The response's `affectedCount` is the JavaScript expression
`result.modifiedCount || result.deletedCount`: for an update operation that
modified 0 documents this is `0 || undefined = undefined` (the field is
omitted from the JSON response), while for a delete it is
`undefined || deletedCount = deletedCount`, defined even at 0. -/

/-- The `updates` object of a bulk request; a missing field is `none`. -/
structure BulkUpdates where
  status : Option String
  priority : Option String
  project : Option Nat
deriving DecidableEq, Repr

/-- A bulk request body; absent members are `none`. -/
structure BulkRequest where
  taskIds : Option (List Nat)
  updates : Option BulkUpdates
  operation : Option String
deriving DecidableEq, Repr

/-- The observable outcome of the bulk handler.  `invalidInput` is the
explicit 400 response; `typeErrorCrash` is the thrown `TypeError` caught and
surfaced as the generic 500 response; `ok` is the 200 response whose
`affectedCount` field is absent (`none`) when the JavaScript `||` fell
through to `undefined`. -/
inductive BulkOutcome
  | invalidInput (error : String)
  | typeErrorCrash
  | ok (operation : String) (affectedCount : Option Nat)
deriving DecidableEq, Repr

/-- Documents matched by `{_id: {$in: taskIds}}`. -/
def countMatching (store : List Task) (ids : List Nat) : Nat :=
  (store.filter (fun t => t.ident ∈ ids)).length

/-- The `modifiedCount` of an `updateMany` that sets `field` via `get`/`set` and
always also sets `updatedAt := now`: a matched document counts as modified
iff the update actually changes it. -/
def modifiedCountBy (store : List Task) (ids : List Nat)
    (changes : Task → Bool) : Nat :=
  (store.filter (fun t => t.ident ∈ ids && changes t)).length

/-- The JavaScript `affectedCount: result.modifiedCount || result.deletedCount` for an
update result (where `deletedCount` is `undefined`). -/
def affectedOfUpdate (modified : Nat) : Option Nat :=
  if modified = 0 then none else some modified

/-- The bulk handler: returns the HTTP-observable outcome and the store
after the call.  JavaScript falsiness of a required string field covers
both an absent field and the empty string. -/
def bulkUpdateTasks (store : List Task) (now : Int) (req : BulkRequest) :
    BulkOutcome × List Task :=
  match req.taskIds with
  | none => (.invalidInput "taskIds array is required", store)
  | some ids =>
    if ids.isEmpty then (.invalidInput "taskIds array is required", store)
    else
      match req.operation with
      | some "update-status" =>
        match req.updates with
        | none => (.typeErrorCrash, store)
        | some u =>
          match u.status with
          | none => (.invalidInput "Status is required for status update", store)
          | some s =>
            if s = "" then
              (.invalidInput "Status is required for status update", store)
            else
              (.ok "update-status"
                 (affectedOfUpdate (modifiedCountBy store ids
                   (fun t => t.status ≠ s || t.updatedAt ≠ now))),
               store.map (fun t =>
                 if t.ident ∈ ids then
                   { t with status := s, updatedAt := now }
                 else t))
      | some "update-priority" =>
        match req.updates with
        | none => (.typeErrorCrash, store)
        | some u =>
          match u.priority with
          | none => (.invalidInput "Priority is required for priority update", store)
          | some s =>
            if s = "" then
              (.invalidInput "Priority is required for priority update", store)
            else
              (.ok "update-priority"
                 (affectedOfUpdate (modifiedCountBy store ids
                   (fun t => t.priority ≠ s || t.updatedAt ≠ now))),
               store.map (fun t =>
                 if t.ident ∈ ids then
                   { t with priority := s, updatedAt := now }
                 else t))
      | some "assign-project" =>
        match req.updates with
        | none => (.typeErrorCrash, store)
        | some u =>
          match u.project with
          | none => (.invalidInput "Project is required for project assignment", store)
          | some pid =>
            (.ok "assign-project"
               (affectedOfUpdate (modifiedCountBy store ids
                 (fun t => t.project ≠ some pid || t.updatedAt ≠ now))),
             store.map (fun t =>
               if t.ident ∈ ids then
                 { t with project := some pid, updatedAt := now }
               else t))
      | some "delete" =>
        (.ok "delete" (some (countMatching store ids)),
         store.filter (fun t => !(t.ident ∈ ids)))
      | _ => (.invalidInput "Invalid operation", store)

/-! ### CSV rendering (dashboardController.js lines 490-504)

`convertToCSV` returns `''` on an empty array; otherwise the headers are
`Object.keys(data[0])` (the first record's key order), each value is
`typeof value === 'string' ? `"${value}"` : value` (quoting without any
escaping), and the rows are stitched with
`[csvHeaders, ...csvRows].join('\\n')` — in the source file the join
separator is the two-character LITERAL backslash-n, not a newline. -/

/-- A JavaScript value as it can appear in a report record. -/
inductive JSValue
  | str (s : String)
  | num (n : Int)
  | boolean (b : Bool)
  | null
  | undefinedValue
deriving DecidableEq, Repr

/-- The lookup `item[header]`: `undefined` when the record has no such key. -/
def jsonKeyLookup (item : List (String × JSValue)) (h : String) : JSValue :=
  ((item.find? (fun kv => kv.1 = h)).map (fun kv => kv.2)).getD .undefinedValue

/-- The ternary `typeof value === 'string' ? `"${value}"` : value`. -/
def quoteIfString : JSValue → JSValue
  | .str s => .str ("\"" ++ s ++ "\"")
  | v => v

/-- How `Array.prototype.join` stringifies one element (`undefined` and
`null` become the empty string). -/
def joinElemString : JSValue → String
  | .str s => s
  | .num n => toString n
  | .boolean true => "true"
  | .boolean false => "false"
  | .null => ""
  | .undefinedValue => ""

/-- The JavaScript `Array.prototype.join(sep)`. -/
def joinWith (sep : String) : List String → String
  | [] => ""
  | [x] => x
  | x :: y :: xs => x ++ sep ++ joinWith sep (y :: xs)

/-- The source's `convertToCSV`.  The row separator is the Lean string
`"\\n"`, i.e. the two characters backslash and `n`, exactly as in the
source's `join('\\n')`. -/
def convertToCSV (data : List (List (String × JSValue))) : String :=
  match data with
  | [] => ""
  | first :: _ =>
    let headers := first.map (fun kv => kv.1)
    let csvHeaders := joinWith "," headers
    let csvRows := data.map (fun item =>
      joinWith "," (headers.map (fun h =>
        joinElemString (quoteIfString (jsonKeyLookup item h)))))
    joinWith "\\n" (csvHeaders :: csvRows)

/-- Specification-side rendering of one field, written from the claim's
words: a textual value is wrapped in double quotes with no escaping of
embedded quotes or commas; anything else is emitted bare. -/
def csvFieldSpec : JSValue → String
  | .str s => "\"" ++ s ++ "\""
  | v => joinElemString v

/-- Specification-side rendering of one record row against a header list. -/
def csvRowSpec (headers : List String) (item : List (String × JSValue)) :
    String :=
  joinWith "," (headers.map (fun h => csvFieldSpec (jsonKeyLookup item h)))

/-- Specification-side definition of the CSV output, written from the
claim's words: empty input renders as the empty string; otherwise the
header row is the key list of the first record in that record's key order,
every record renders against those headers, and the lines are joined with
the literal two-character sequence backslash-n. -/
def csvSpecOf (data : List (List (String × JSValue))) : String :=
  match data with
  | [] => ""
  | first :: rest =>
    joinWith "\\n"
      (joinWith "," (first.map (fun kv => kv.1)) ::
        (first :: rest).map (fun item =>
          csvRowSpec (first.map (fun kv => kv.1)) item))

/-! ## Helper lemmas -/

/-- Membership is preserved by `insertBy`. -/
theorem mem_insertBy {α : Type} (le : α → α → Bool) (a x : α) (l : List α) :
    x ∈ insertBy le a l ↔ x = a ∨ x ∈ l := by
  induction l with
  | nil => simp [insertBy]
  | cons b l ih =>
    simp only [insertBy]
    split
    · simp [List.mem_cons]
    · simp only [List.mem_cons, ih]
      tauto

/-- Membership is preserved by `sortBy`. -/
theorem mem_sortBy {α : Type} (le : α → α → Bool) (x : α) (l : List α) :
    x ∈ sortBy le l ↔ x ∈ l := by
  induction l with
  | nil => simp [sortBy]
  | cons a l ih => simp [sortBy, mem_insertBy, ih]

/-- The function `insertBy` preserves sortedness for a total transitive relation. -/
theorem pairwise_insertBy {α : Type} (le : α → α → Bool)
    (htot : ∀ a b, le a b = false → le b a = true)
    (htrans : ∀ a b c, le a b = true → le b c = true → le a c = true)
    (a : α) (l : List α) (h : l.Pairwise (fun x y => le x y = true)) :
    (insertBy le a l).Pairwise (fun x y => le x y = true) := by
  induction l with
  | nil => simp [insertBy]
  | cons b l ih =>
    rcases List.pairwise_cons.mp h with ⟨hb, hl⟩
    simp only [insertBy]
    split
    · rename_i hab
      refine List.pairwise_cons.mpr ⟨?_, h⟩
      intro y hy
      rcases List.mem_cons.mp hy with rfl | hyl
      · exact hab
      · exact htrans a b y hab (hb y hyl)
    · rename_i hab
      refine List.pairwise_cons.mpr ⟨?_, ih hl⟩
      intro y hy
      rcases (mem_insertBy le a y l).mp hy with heq | hyl
      · rw [heq]
        exact htot a b (Bool.eq_false_iff.mpr hab)
      · exact hb y hyl

/-- The function `sortBy` sorts, for a total transitive relation. -/
theorem pairwise_sortBy {α : Type} (le : α → α → Bool)
    (htot : ∀ a b, le a b = false → le b a = true)
    (htrans : ∀ a b c, le a b = true → le b c = true → le a c = true)
    (l : List α) :
    (sortBy le l).Pairwise (fun x y => le x y = true) := by
  induction l with
  | nil => simp [sortBy]
  | cons a l ih => exact pairwise_insertBy le htot htrans a _ ih

/-- A predicate true of exactly one element of a duplicate-free list holds
with count 1. -/
theorem countP_eq_one_of_nodup_mem {κ : Type} [DecidableEq κ]
    (l : List κ) (p : κ) (hnd : l.Nodup) (hp : p ∈ l) :
    l.countP (fun k => k = p) = 1 := by
  induction l with
  | nil => cases hp
  | cons a l ih =>
    rcases List.nodup_cons.mp hnd with ⟨ha, hl⟩
    rw [List.countP_cons]
    by_cases hap : a = p
    · have hzero : l.countP (fun k => k = p) = 0 := by
        rw [List.countP_eq_zero]
        intro b hb
        simp only [decide_eq_true_eq]
        intro hbp
        apply ha
        rw [hap, ← hbp]
        exact hb
      simp [hzero, hap]
    · have hmem : p ∈ l := by
        rcases List.mem_cons.mp hp with h1 | h2
        · exact absurd h1.symm hap
        · exact h2
      simp [ih hl hmem, hap]

/-- The keys of `groupBy` are the deduplicated key list. -/
theorem groupBy_keys {α κ : Type} [DecidableEq κ] (key : α → κ) (l : List α) :
    (groupBy key l).map Prod.fst = groupKeys key l := by
  unfold groupBy
  rw [List.map_map]
  simp [Function.comp_def]

/-! ## Sample documents used by concrete evaluations -/

/-- A default Task document; concrete inputs below override fields. -/
def baseTask : Task :=
  { ident := 0
    title := "t"
    status := "todo"
    priority := "medium"
    project := none
    dueDate := none
    completedDate := none
    estimatedHours := none
    actualHours := none
    createdAt := 0
    updatedAt := 0 }

/-! ## The claims -/

/-- C1: the claim says `completionRate` is a defined value in [0,100] and
equals 0 when the sum of all per-status task counts is 0, in particular on
the empty Task collection.  The code has NO guard on that denominator: on
the empty collection it computes `0 / 0`, i.e. NaN (`none`), not 0 — the
claim fails on the code at this input. -/
theorem completionRate_nan_on_empty_denominator :
    completionRate (taskStatsOf []) = none := by decide

/-- C2: the claim says `timeAccuracy` divides the SUM of `totalActual`
across all status buckets by the SUM of `totalEstimated` across all status
buckets.  On two tasks with distinct statuses (estimated 10/actual 5 and
estimated 20/actual 30) the code instead divides the first bucket's values,
giving 50, while the summed computation gives 350/3 ≈ 116.7 — the claim
fails on the code at this input. -/
theorem timeAccuracy_first_bucket_not_sum :
    timeAccuracy (taskStatsOf
        [{ baseTask with estimatedHours := some 10, actualHours := some 5 },
         { baseTask with ident := 1, status := "completed",
                         estimatedHours := some 20, actualHours := some 30 }])
      = some 50 ∧
    timeAccuracySumSpec (taskStatsOf
        [{ baseTask with estimatedHours := some 10, actualHours := some 5 },
         { baseTask with ident := 1, status := "completed",
                         estimatedHours := some 20, actualHours := some 30 }])
      = 350 / 3 ∧
    (50 : Rat) ≠ 350 / 3 := by
  have hd : (["todo", "completed"] : List String).dedup = ["todo", "completed"] := by
    decide
  refine ⟨?_, ?_, by norm_num⟩
  · simp +decide [timeAccuracy, taskStatsOf, groupBy, groupKeys, sumOf,
      baseTask, List.find?, List.filter, hd]
    all_goals norm_num
  · simp +decide [timeAccuracySumSpec, taskStatsOf, groupBy, groupKeys, sumOf,
      baseTask, List.filter, hd]
    all_goals norm_num

/-- C3 counterexample: the claim says a single clock reading is used by both
the overdue filter and the age calculation.  The source evaluates
`new Date()` twice; on two tasks due at 0 and at 100, the readings
(50, 86400050) produce a result that differs both from using the first
reading for both places and from using the second reading for both places —
no single captured value explains the output, so the claim as stated fails
on the code. -/
theorem overdueAnalysis_two_clock_reads :
    (overdueAnalysis
        [{ baseTask with priority := "high", dueDate := some 0 },
         { baseTask with ident := 1, priority := "high", dueDate := some 100 }]
        50 86400050 ≠
     overdueAnalysis
        [{ baseTask with priority := "high", dueDate := some 0 },
         { baseTask with ident := 1, priority := "high", dueDate := some 100 }]
        50 50) ∧
    (overdueAnalysis
        [{ baseTask with priority := "high", dueDate := some 0 },
         { baseTask with ident := 1, priority := "high", dueDate := some 100 }]
        50 86400050 ≠
     overdueAnalysis
        [{ baseTask with priority := "high", dueDate := some 0 },
         { baseTask with ident := 1, priority := "high", dueDate := some 100 }]
        86400050 86400050) := by
  have hd1 : (["high"] : List String).dedup = ["high"] := by decide
  have hd2 : (["high", "high"] : List String).dedup = ["high"] := by decide
  refine ⟨?_, ?_⟩ <;>
    (simp +decide [overdueAnalysis, isOverdueAt, groupBy, groupKeys, sumOf,
       msPerDay, baseTask, List.filter, hd1, hd2]
     all_goals norm_num)

/-- C3 amended: the overdue filter and the age calculation each take their
own clock reading; whenever the two readings return the same instant, the
computation coincides with the single-capture computation the spec
describes. -/
theorem overdueAnalysis_equal_reads_single_capture
    (tasks : List Task) (now : Int) :
    overdueAnalysis tasks now now = overdueAnalysisSingleCapture tasks now := rfl

/-- C4: the claim says `affectedCount` equals 0 (and the request succeeds)
when none of the supplied identifiers exist, for the update operations as
well as for delete.  For an update operation the code computes
`result.modifiedCount || result.deletedCount` = `0 || undefined` =
`undefined`: the request succeeds but `affectedCount` is absent (`none`),
not 0 — the claim fails on the code.  For delete the same expression is
`undefined || 0` = 0, as the claim says. -/
theorem bulkUpdate_affectedCount_undefined_when_none_exist :
    bulkUpdateTasks [baseTask] 99
        { taskIds := some [5]
          updates := some { status := some "todo", priority := none, project := none }
          operation := some "update-status" }
      = (.ok "update-status" none, [baseTask]) ∧
    bulkUpdateTasks [baseTask] 99
        { taskIds := some [5]
          updates := none
          operation := some "delete" }
      = (.ok "delete" (some 0), [baseTask]) := by
  refine ⟨by decide, by decide⟩

/-- C5: the claim says a recognized non-delete operation whose required
payload field is missing fails with a 400-equivalent InvalidInput error,
INCLUDING when the `updates` object is absent entirely.  With `updates`
absent the code dereferences `updates.<field>` and throws a TypeError that
the catch block surfaces as a 500, not a 400 — the claim fails on the code
there.  (With `updates` present but the field missing the code does return
the 400, and no mutation is applied in either case.) -/
theorem bulkUpdate_missing_updates_object_is_500_crash :
    bulkUpdateTasks [baseTask] 99
        { taskIds := some [0], updates := none, operation := some "update-status" }
      = (.typeErrorCrash, [baseTask]) ∧
    bulkUpdateTasks [baseTask] 99
        { taskIds := some [0], updates := none, operation := some "update-priority" }
      = (.typeErrorCrash, [baseTask]) ∧
    bulkUpdateTasks [baseTask] 99
        { taskIds := some [0], updates := none, operation := some "assign-project" }
      = (.typeErrorCrash, [baseTask]) ∧
    bulkUpdateTasks [baseTask] 99
        { taskIds := some [0]
          updates := some { status := none, priority := none, project := none }
          operation := some "update-status" }
      = (.invalidInput "Status is required for status update", [baseTask]) := by
  refine ⟨by decide, by decide, by decide, by decide⟩

/-- C6: the claim says a Task with `estimatedHours = 0` (here with
`actualHours = 5`) is excluded from the time-tracking report.  The report's
`$match` only requires the fields to EXIST, which a present 0 satisfies, so
the task is kept and its `variancePercent` is an unguarded division by
zero (`none`) — the report output is a one-record list, not the empty list
the claim requires. -/
theorem timeTracking_zero_estimate_included_not_excluded :
    timeTrackingReport
        [{ baseTask with title := "z", estimatedHours := some 0,
                         actualHours := some 5 }] none none
      = [{ title := "z", estimatedHours := 0, actualHours := 5,
           variance := 5, variancePercent := none }] ∧
    (timeTrackingReport
        [{ baseTask with title := "z", estimatedHours := some 0,
                         actualHours := some 5 }] none none).length ≠ 0 := by
  refine ⟨?_, ?_⟩ <;>
    simp +decide [timeTrackingReport, inDateFilter, baseTask, List.filter]

/-- C7: for every Project row of the progress rollup (a Project with zero
linked Tasks still appears, via the outer join), `progressPercentage`
equals completedTasks/totalTasks × 100 when totalTasks > 0 and equals 0
when totalTasks = 0, and consequently lies in [0,100]. -/
theorem projectProgress_percentage_in_range
    (projects : List Project) (tasks : List Task)
    (r : ProgressRow) (hr : r ∈ projectProgress projects tasks) :
    (r.totalTasks = 0 → r.progressPercentage = 0) ∧
    (0 < r.totalTasks →
      r.progressPercentage = (r.completedTasks : Rat) / (r.totalTasks : Rat) * 100) ∧
    0 ≤ r.progressPercentage ∧ r.progressPercentage ≤ 100 := by
  rw [projectProgress, mem_sortBy] at hr
  rcases List.mem_map.mp hr with ⟨p, hp, hre⟩
  subst hre
  have hc : ((tasks.filter (fun t => t.project = some p.ident)).filter
        (fun t => t.status = "completed")).length ≤
      (tasks.filter (fun t => t.project = some p.ident)).length :=
    List.length_filter_le _ _
  have ht : (progressRowOf tasks p).totalTasks =
      (tasks.filter (fun t => t.project = some p.ident)).length := rfl
  have hcmp : (progressRowOf tasks p).completedTasks =
      ((tasks.filter (fun t => t.project = some p.ident)).filter
        (fun t => t.status = "completed")).length := rfl
  have hpp : (progressRowOf tasks p).progressPercentage =
      if 0 < (tasks.filter (fun t => t.project = some p.ident)).length then
        (((tasks.filter (fun t => t.project = some p.ident)).filter
            (fun t => t.status = "completed")).length : Rat) /
          ((tasks.filter (fun t => t.project = some p.ident)).length : Rat) * 100
      else 0 := rfl
  rw [ht, hcmp, hpp]
  set n := (tasks.filter (fun t => t.project = some p.ident)).length with hset1
  set c := ((tasks.filter (fun t => t.project = some p.ident)).filter
    (fun t => t.status = "completed")).length with hset2
  refine ⟨?_, ?_, ?_, ?_⟩
  · intro h0
    simp [h0]
  · intro hlt
    simp [hlt]
  · split
    · positivity
    · exact le_refl 0
  · split
    · rename_i hlt
      have hnq : (0 : Rat) < (n : Rat) := by exact_mod_cast hlt
      have hcq : (c : Rat) ≤ (n : Rat) := by exact_mod_cast hc
      have h1 : (c : Rat) / (n : Rat) ≤ 1 := (div_le_one hnq).mpr hcq
      calc (c : Rat) / (n : Rat) * 100 ≤ 1 * 100 :=
            mul_le_mul_of_nonneg_right h1 (by norm_num)
        _ = 100 := by norm_num
    · norm_num

/-- A sample Project document for concrete evaluations. -/
def proj0 : Project :=
  { ident := 0
    name := "p"
    status := "planning"
    priority := "medium"
    startDate := none
    dueDate := none
    completedDate := none }

/-- C7 witness: the bounds hold at a concrete input (one project, one
completed task linked to it). -/
theorem projectProgress_percentage_in_range_witness :
    0 ≤ (progressRowOf [{ baseTask with project := some 0, status := "completed" }]
          proj0).progressPercentage ∧
    (progressRowOf [{ baseTask with project := some 0, status := "completed" }]
          proj0).progressPercentage ≤ 100 :=
  (projectProgress_percentage_in_range [proj0]
    [{ baseTask with project := some 0, status := "completed" }]
    (progressRowOf [{ baseTask with project := some 0, status := "completed" }] proj0)
    (by
      have h : projectProgress [proj0]
          [{ baseTask with project := some 0, status := "completed" }] =
          [progressRowOf [{ baseTask with project := some 0, status := "completed" }]
            proj0] := rfl
      rw [h]
      exact List.mem_singleton.mpr rfl)).2.2

/-- C8: in the priority × status cross-tabulation, every priority appearing
in any Task appears in the output exactly once, and each row's `total`
equals the sum of the counts of its per-status breakdown entries. -/
theorem priorityDistribution_cross_tab (tasks : List Task) (p : String)
    (hp : p ∈ tasks.map (fun t => t.priority)) :
    ((priorityDistribution tasks).countP (fun r => r.priorityKey = p) = 1) ∧
    ∀ r ∈ priorityDistribution tasks,
      r.total = (r.statusBreakdown.map (fun c => c.count)).sum := by
  constructor
  · have hcells : (priorityCells tasks).map (fun c => c.1) =
        (groupKeys (fun t => (t.priority, t.status)) tasks).map (fun k => k.1) := by
      rw [priorityCells, groupBy, List.map_map, List.map_map]
      rfl
    rcases List.mem_map.mp hp with ⟨t, ht, hpe⟩
    subst hpe
    have hpair : (t.priority, t.status) ∈
        groupKeys (fun t => (t.priority, t.status)) tasks :=
      List.mem_dedup.mpr (List.mem_map_of_mem _ ht)
    have hmem1 : t.priority ∈ (priorityCells tasks).map (fun c => c.1) := by
      rw [hcells]
      exact List.mem_map.mpr ⟨(t.priority, t.status), hpair, rfl⟩
    have hmem : t.priority ∈ groupKeys (fun c => c.1) (priorityCells tasks) :=
      List.mem_dedup.mpr hmem1
    rw [priorityDistribution, groupBy, List.map_map, List.countP_map]
    exact countP_eq_one_of_nodup_mem _ t.priority (List.nodup_dedup _) hmem
  · intro r hr
    rcases List.mem_map.mp hr with ⟨g, hg, hre⟩
    subst hre
    simp only [List.map_map]
    rfl

/-- C8 witness: the cross-tabulation properties hold at a concrete input
(one task with priority medium). -/
theorem priorityDistribution_cross_tab_witness :
    (priorityDistribution [baseTask]).countP
      (fun r => r.priorityKey = "medium") = 1 :=
  (priorityDistribution_cross_tab [baseTask] "medium" (by decide)).1

/-- C9 counterexample: the claim says an activity entry whose Task
references no Project (or a dangling one) carries the EMPTY STRING as
`projectName`.  On a task with no project reference the pipeline's
`$arrayElemAt` over the empty lookup result yields a missing field
(`none`), which is not the empty string — the claim as stated fails on the
code at this input. -/
theorem recentActivity_projectName_absent_not_empty_string :
    ((recentActivity [] [{ baseTask with updatedAt := 10 }] 0).map
      (fun e => e.projectName) = [none]) ∧
    ((none : Option String) ≠ some "") := by
  refine ⟨by decide, by decide⟩

/-- C9 amended: the feed has at most 20 entries, is sorted by `updatedAt`
descending, contains only entries derived (via `activityEntry`) from Tasks
updated within the lookback window, and each entry's `projectName` is the
referenced Project's name, or ABSENT (`none`, the field is omitted) when
the Task references no Project or the reference is dangling. -/
theorem recentActivity_feed_properties
    (projects : List Project) (tasks : List Task) (startDate : Int) :
    (recentActivity projects tasks startDate).length ≤ 20 ∧
    (recentActivity projects tasks startDate).Pairwise
      (fun a b => b.updatedAt ≤ a.updatedAt) ∧
    (∀ e ∈ recentActivity projects tasks startDate,
      e ∈ (tasks.filter (fun t => startDate ≤ t.updatedAt)).map
        (activityEntry projects)) ∧
    (∀ t : Task, (activityEntry projects t).projectName =
      t.project.bind (fun pid =>
        (projects.find? (fun p => p.ident = pid)).map (fun p => p.name))) := by
  have htot : ∀ a b : Task,
      (fun a b : Task => decide (b.updatedAt ≤ a.updatedAt)) a b = false →
      (fun a b : Task => decide (b.updatedAt ≤ a.updatedAt)) b a = true := by
    intro a b h
    simp only [decide_eq_false_iff_not, not_le] at h
    simp only [decide_eq_true_eq]
    omega
  have htrans : ∀ a b c : Task,
      (fun a b : Task => decide (b.updatedAt ≤ a.updatedAt)) a b = true →
      (fun a b : Task => decide (b.updatedAt ≤ a.updatedAt)) b c = true →
      (fun a b : Task => decide (b.updatedAt ≤ a.updatedAt)) a c = true := by
    intro a b c h1 h2
    simp only [decide_eq_true_eq] at h1 h2 ⊢
    omega
  refine ⟨?_, ?_, ?_, fun t => rfl⟩
  · rw [recentActivity, List.length_map]
    exact List.length_take_le _ _
  · rw [recentActivity]
    refine List.pairwise_map.mpr ?_
    have hs := pairwise_sortBy (fun a b : Task => decide (b.updatedAt ≤ a.updatedAt))
      htot htrans (tasks.filter (fun t => startDate ≤ t.updatedAt))
    have htake := List.Pairwise.sublist (List.take_sublist 20 _) hs
    exact htake.imp (fun h => of_decide_eq_true h)
  · intro e he
    rw [recentActivity] at he
    rcases List.mem_map.mp he with ⟨t, ht, hte⟩
    subst hte
    have ht1 : t ∈ sortBy (fun a b : Task => decide (b.updatedAt ≤ a.updatedAt))
        (tasks.filter (fun t => startDate ≤ t.updatedAt)) :=
      List.mem_of_mem_take ht
    have ht2 : t ∈ tasks.filter (fun t => startDate ≤ t.updatedAt) :=
      (mem_sortBy _ t _).mp ht1
    exact List.mem_map_of_mem _ ht2

/-- C9 witness: the amended feed properties at a concrete input. -/
theorem recentActivity_feed_properties_witness :
    (recentActivity [] [{ baseTask with updatedAt := 10 }] 0).length ≤ 20 :=
  (recentActivity_feed_properties [] [{ baseTask with updatedAt := 10 }] 0).1

/-- Fields render identically through the source's quote-then-join path and
the specification-side `csvFieldSpec`. -/
theorem csvField_render_eq (v : JSValue) :
    joinElemString (quoteIfString v) = csvFieldSpec v := by
  cases v with
  | str s => rfl
  | num n => rfl
  | boolean b => cases b <;> rfl
  | null => rfl
  | undefinedValue => rfl

/-- The source's CSV rendering coincides with the specification-side
description for every input. -/
theorem convertToCSV_eq_spec (data : List (List (String × JSValue))) :
    convertToCSV data = csvSpecOf data := by
  cases data with
  | nil => rfl
  | cons first rest =>
    simp [convertToCSV, csvSpecOf, csvRowSpec, csvField_render_eq]

/-- The string `s` contains no newline character. -/
def strNoNL (s : String) : Prop := ¬ ('\n' ∈ s.data)

instance (s : String) : Decidable (strNoNL s) := by
  unfold strNoNL
  infer_instance

/-- Newline-freedom is preserved by string append. -/
theorem strNoNL_append (a b : String) (ha : strNoNL a) (hb : strNoNL b) :
    strNoNL (a ++ b) := by
  unfold strNoNL at *
  rw [String.data_append]
  intro hmem
  rcases List.mem_append.mp hmem with h | h
  · exact ha h
  · exact hb h

/-- Newline-freedom is preserved by `joinWith` with a newline-free
separator. -/
theorem strNoNL_joinWith (sep : String) (hsep : strNoNL sep) :
    ∀ l : List String, (∀ s ∈ l, strNoNL s) → strNoNL (joinWith sep l) := by
  intro l
  induction l with
  | nil =>
    intro _
    show strNoNL ""
    decide
  | cons x xs ih =>
    intro h
    cases xs with
    | nil => exact h x (List.mem_singleton.mpr rfl)
    | cons y ys =>
      have h1 : strNoNL x := h x (List.mem_cons_self x (y :: ys))
      have hrest : strNoNL (joinWith sep (y :: ys)) := by
        refine ih ?_
        intro s hs
        exact h s (List.mem_cons_of_mem x hs)
      exact strNoNL_append _ _ (strNoNL_append _ _ h1 hsep) hrest

/-- C10: for an empty result set `convertToCSV` returns the empty string;
for a non-empty result set the header row is the key list of the first
record in that record's key order, each textual field value is wrapped in
double quotes with no escaping of embedded quotes or commas, and the lines
are joined with the literal two-character sequence backslash-n (not a
newline), so the whole output is one physical line whenever no header or
rendered field contains a newline character.  Stated as: the source's
rendering equals the specification-side `csvSpecOf` on every input, it
behaves as required on a concrete record with an embedded comma, and its
output contains no newline character. -/
theorem convertToCSV_matches_claim :
    (convertToCSV [] = "") ∧
    (∀ data, convertToCSV data = csvSpecOf data) ∧
    (convertToCSV [[("a", JSValue.str "x,y"), ("b", JSValue.num 3)]] =
      "a,b\\n\"x,y\",3") ∧
    (∀ data, (∀ rec ∈ data, ∀ kv ∈ rec,
        strNoNL kv.1 ∧ strNoNL (csvFieldSpec kv.2)) →
      strNoNL (convertToCSV data)) := by
  refine ⟨rfl, convertToCSV_eq_spec, by decide, ?_⟩
  intro data hnl
  rw [convertToCSV_eq_spec]
  cases data with
  | nil =>
    show strNoNL ""
    decide
  | cons first rest =>
    show strNoNL (joinWith "\\n"
      (joinWith "," (first.map (fun kv => kv.1)) ::
        (first :: rest).map (fun item =>
          csvRowSpec (first.map (fun kv => kv.1)) item)))
    refine strNoNL_joinWith _ (by decide) _ ?_
    intro s hs
    rcases List.mem_cons.mp hs with hhd | hsrow
    · rw [hhd]
      refine strNoNL_joinWith _ (by decide) _ ?_
      intro hstr hh
      rcases List.mem_map.mp hh with ⟨kv, hkv, hke⟩
      subst hke
      exact (hnl first (List.mem_cons_self first rest) kv hkv).1
    · rcases List.mem_map.mp hsrow with ⟨item, hitem, hie⟩
      subst hie
      rw [csvRowSpec]
      refine strNoNL_joinWith _ (by decide) _ ?_
      intro fs hfs
      rcases List.mem_map.mp hfs with ⟨h, hh, hfe⟩
      subst hfe
      cases hfind : (item.find? (fun kv => kv.1 = h)) with
      | none =>
        have hlk : jsonKeyLookup item h = JSValue.undefinedValue := by
          simp [jsonKeyLookup, hfind]
        rw [hlk]
        decide
      | some kv =>
        have hkvmem : kv ∈ item := List.mem_of_find?_eq_some hfind
        have hlk : jsonKeyLookup item h = kv.2 := by
          simp [jsonKeyLookup, hfind]
        rw [hlk]
        exact (hnl item hitem kv hkvmem).2

/-- C10 witness: the conditional single-physical-line conjunct applied at a
concrete record list, hypotheses discharged by evaluation. -/
theorem convertToCSV_matches_claim_witness :
    strNoNL (convertToCSV [[("a", JSValue.str "x")]]) :=
  convertToCSV_matches_claim.2.2.2 [[("a", JSValue.str "x")]] (by decide)

end PTM
